import Mathlib

/-!
# A verification development for `stockholmr/database`

Shallow embedding of `src/database.go`: the statement builders
(`buildInsertCommand`, `buildUpdateCommand`, `buildDeleteCommand`), the
dynamically typed values and their coercions (`_int`, `_string`, `_float`,
`_bool`, `_time`), the `DataRow` and `FieldValuePair` accessors, and the
executor operations (`Insert`, `Update`, `Delete`, `Select`, `SelectRow`)
run against a scripted database client.
-/

set_option autoImplicit false

namespace Database

/-! ## Dynamic values (`interface{}`) -/

/-- A Go `time.Time`, reduced to what the code builds: seconds and nanoseconds
since the Unix epoch and whether the location is `Local` (as `time.Unix` sets)
or comes from the parsed text. -/
structure Time where
  sec : Int
  nsec : Nat
  isLocal : Bool
  deriving DecidableEq, Repr

/-- A Go `float64`. Either a value given by its IEEE-754 bit pattern, or the
widening `float64(v)` of a `float32` given by its bit pattern (kept symbolic:
the code never computes with it). -/
inductive Float64 where
  | bits (b : Nat)
  | ofFloat32 (b : Nat)
  deriving DecidableEq, Repr

/-- The Go zero value `0.0` of `float64`. -/
def Float64.zero : Float64 := Float64.bits 0

/-- The dynamic type of the value stored in an `interface{}`: the Go types a
caller or a driver can put into a `FieldValuePair.Value` or a `DataRow.Data`
entry. Integer payloads are mathematical integers; `Dyn.WellFormed` states the
range of each width. -/
inductive Dyn where
  | nil
  | bool (b : Bool)
  | int (n : Int)
  | int8 (n : Int)
  | int16 (n : Int)
  | int32 (n : Int)
  | int64 (n : Int)
  | uint (n : Nat)
  | uint8 (n : Nat)
  | uint16 (n : Nat)
  | uint32 (n : Nat)
  | uint64 (n : Nat)
  | float32 (b : Nat)
  | float64 (b : Nat)
  | string (s : String)
  | bytes (bs : List Nat)
  | time (t : Time)
  deriving DecidableEq, Repr

/-- Range of a signed two's-complement integer of `w` bits. -/
def inSigned (w : Nat) (n : Int) : Prop := -(2 : Int) ^ (w - 1) ≤ n ∧ n < (2 : Int) ^ (w - 1)

instance (w : Nat) (n : Int) : Decidable (inSigned w n) := by
  unfold inSigned; exact inferInstance

/-- A dynamic value is well formed when its payload fits its Go type (the
platform `int` and `uint` are 64 bits wide). -/
def Dyn.WellFormed : Dyn → Prop
  | .int n => inSigned 64 n
  | .int8 n => inSigned 8 n
  | .int16 n => inSigned 16 n
  | .int32 n => inSigned 32 n
  | .int64 n => inSigned 64 n
  | .uint n => n < 2 ^ 64
  | .uint8 n => n < 2 ^ 8
  | .uint16 n => n < 2 ^ 16
  | .uint32 n => n < 2 ^ 32
  | .uint64 n => n < 2 ^ 64
  | .float32 b => b < 2 ^ 32
  | .float64 b => b < 2 ^ 64
  | .bytes bs => ∀ b ∈ bs, b < 256
  | .time t => t.nsec < 1000000000
  | _ => True

/-- The value is a native signed integer (`int`, `int8`, `int16`, `int32`, `int64`). -/
def Dyn.isSignedInt : Dyn → Bool
  | .int _ | .int8 _ | .int16 _ | .int32 _ | .int64 _ => true
  | _ => false

/-- The value is a native string. -/
def Dyn.isString : Dyn → Bool
  | .string _ => true
  | _ => false

/-- The value is a native float (`float32`, `float64`). -/
def Dyn.isFloat : Dyn → Bool
  | .float32 _ | .float64 _ => true
  | _ => false

/-- The value is a native boolean. -/
def Dyn.isBool : Dyn → Bool
  | .bool _ => true
  | _ => false

/-- The Go conversion `int64(v)`: the value reduced to 64-bit two's complement. -/
def toInt64 (n : Int) : Int := (n + 2 ^ 63) % 2 ^ 64 - 2 ^ 63

/-! ## Nullable results (`database/sql`) -/

/-- `sql.NullInt64`. -/
structure NullInt64 where
  Int64 : Int
  Valid : Bool
  deriving DecidableEq, Repr

/-- `sql.NullString`. -/
structure NullString where
  String : String
  Valid : Bool
  deriving DecidableEq, Repr

/-- `sql.NullFloat64`. -/
structure NullFloat64 where
  Float64 : Float64
  Valid : Bool
  deriving DecidableEq, Repr

/-- The Go type `bool` (named apart from the field `NullBool.Bool`). -/
abbrev GoBool : Type := Bool

/-- `sql.NullBool`. -/
structure NullBool where
  Bool : GoBool
  Valid : GoBool
  deriving DecidableEq, Repr

/-- `sql.NullTime`. -/
structure NullTime where
  Time : Time
  Valid : Bool
  deriving DecidableEq, Repr

/-- The zero `time.Time`: `0001-01-01 00:00:00 UTC`, as seconds before the Unix epoch. -/
def Time.zero : Time := ⟨-62135596800, 0, false⟩

/-- The composite literal `&sql.NullInt64{}`. -/
def NullInt64.zero : NullInt64 := ⟨0, false⟩
/-- The composite literal `&sql.NullString{}`. -/
def NullString.zero : NullString := ⟨"", false⟩
/-- The composite literal `&sql.NullFloat64{}`. -/
def NullFloat64.zero : NullFloat64 := ⟨Float64.zero, false⟩
/-- The composite literal `&sql.NullBool{}`. -/
def NullBool.zero : NullBool := ⟨false, false⟩
/-- The composite literal `&sql.NullTime{}`. -/
def NullTime.zero : NullTime := ⟨Time.zero, false⟩

/-! ## `FieldValuePair` and the statement builders -/

/-- The struct `FieldValuePair`. The builders receive `*FieldValuePair`; the
embedding covers the non-nil pointers, for which `o.Key` and `o.Value` are
defined. -/
structure FieldValuePair where
  Key : String
  Value : Dyn
  deriving DecidableEq, Repr

/-- `NewFieldValuePair`. -/
def NewFieldValuePair (key : String) (value : Dyn) : FieldValuePair := ⟨key, value⟩

/-- `NewFieldValuePairCollection`. -/
def NewFieldValuePairCollection (items : List FieldValuePair) : List FieldValuePair := items

/-- The `for i, o := range fields` loop of `buildInsertCommand`, started at
index `i` with the fields still to visit; `n` is `len(fields)` and the state is
`(cmd, placeholders, orderedValues)`. -/
def insertLoop (n : Nat) : Nat → List FieldValuePair → String × String × List Dyn →
    String × String × List Dyn
  | _, [], st => st
  | i, o :: rest, (cmd, placeholders, orderedValues) =>
    let cmd := cmd ++ ("`" ++ o.Key ++ "`")
    let placeholders := placeholders ++ "?"
    let sep : Bool := decide ((i : Int) < (n : Int) - 1)
    let cmd := if sep then cmd ++ ", " else cmd
    let placeholders := if sep then placeholders ++ ", " else placeholders
    insertLoop n (i + 1) rest (cmd, placeholders, orderedValues ++ [o.Value])

/-- `buildInsertCommand`. -/
def buildInsertCommand (table : String) (fields : List FieldValuePair) : String × List Dyn :=
  let orderedValues : List Dyn := []
  let cmd := "INSERT INTO `" ++ table ++ "`("
  let placeholders := ""
  let (cmd, placeholders, orderedValues) :=
    insertLoop fields.length 0 fields (cmd, placeholders, orderedValues)
  let cmd := cmd ++ (") VALUES (" ++ placeholders ++ ");")
  (cmd, orderedValues)

/-- The `for i, o := range fields` loop of `buildUpdateCommand`; the state is
`(cmd, orderedValues)`. -/
def updateLoop (n : Nat) : Nat → List FieldValuePair → String × List Dyn → String × List Dyn
  | _, [], st => st
  | i, o :: rest, (cmd, orderedValues) =>
    let cmd := cmd ++ ("`" ++ o.Key ++ "`=?")
    let cmd := if (i : Int) < (n : Int) - 1 then cmd ++ ", " else cmd
    updateLoop n (i + 1) rest (cmd, orderedValues ++ [o.Value])

/-- `buildUpdateCommand`. -/
def buildUpdateCommand (table : String) (fields : List FieldValuePair) (where_ : FieldValuePair) :
    String × List Dyn :=
  let orderedValues : List Dyn := []
  let cmd := "UPDATE `" ++ table ++ "` SET "
  let (cmd, orderedValues) := updateLoop fields.length 0 fields (cmd, orderedValues)
  let cmd := cmd ++ (" WHERE `" ++ where_.Key ++ "`=?")
  let orderedValues := orderedValues ++ [where_.Value]
  (cmd, orderedValues)

/-- `buildDeleteCommand`. -/
def buildDeleteCommand (table : String) (where_ : FieldValuePair) : String × List Dyn :=
  let orderedValues : List Dyn := []
  let cmd := "DELETE FROM `" ++ table ++ "` WHERE `" ++ where_.Key ++ "`=?"
  let orderedValues := orderedValues ++ [where_.Value]
  (cmd, orderedValues)

/-! ## Coercions of dynamic values -/

/-- `_int`: the type switch accepts `int`, `int64` and `int32`. -/
def _int : Dyn → NullInt64
  | .int v => ⟨toInt64 v, true⟩
  | .int64 v => ⟨v, true⟩
  | .int32 v => ⟨toInt64 v, true⟩
  | _ => NullInt64.zero

/-- `_string`. -/
def _string : Dyn → NullString
  | .string v => ⟨v, true⟩
  | _ => NullString.zero

/-- `_float`: the type switch accepts `float32` (widened) and `float64`. -/
def _float : Dyn → NullFloat64
  | .float32 v => ⟨Float64.ofFloat32 v, true⟩
  | .float64 v => ⟨Float64.bits v, true⟩
  | _ => NullFloat64.zero

/-- `_bool`. -/
def _bool : Dyn → NullBool
  | .bool v => ⟨v, true⟩
  | _ => NullBool.zero

/-- `_boolFromInt`. -/
def _boolFromInt (value : NullInt64) : NullBool :=
  if value.Int64 = 1 then ⟨true, true⟩ else ⟨false, true⟩

/-- `_time`. -/
def _time : Dyn → NullTime
  | .time v => ⟨v, true⟩
  | _ => NullTime.zero

/-- The library call `time.Unix(sec, 0)`: the local time `sec` seconds after the epoch. -/
def timeUnix (sec : Int) : Time := ⟨sec, 0, true⟩

/-- `_timeFromUnix`. -/
def _timeFromUnix (value : NullInt64) : NullTime :=
  let unixTime := timeUnix value.Int64
  ⟨unixTime, true⟩

/-- A Go `error` value: the sentinel `sql.ErrNoRows`, an error made by
`errors.New`, or any other failure reported by the database client. -/
inductive Error where
  | ErrNoRows
  | new (msg : String)
  | client (code : Nat)
  deriving DecidableEq, Repr

deriving instance DecidableEq for Except

/-- `_timeFromRFC3339String`; the library call `time.Parse(time.RFC3339, ·)` is
the parameter `parseRFC3339`. -/
def _timeFromRFC3339String (parseRFC3339 : String → Except Error Time) (value : NullString) :
    NullTime :=
  match parseRFC3339 value.String with
  | .error _ => NullTime.zero
  | .ok dt => ⟨dt, true⟩

/-! ## `DataRow` -/

/-- The Go type `string` (named apart from the accessors called `String`). -/
abbrev GoString : Type := String

/-- A Go `map[string]interface{}` as an association list read by first match. -/
abbrev Data : Type := List (GoString × Dyn)

/-- The map assignment `m[k] = v`. -/
def Data.set : Data → GoString → Dyn → Data
  | [], k, v => [(k, v)]
  | (k', v') :: rest, k, v => if k' = k then (k, v) :: rest else (k', v') :: Data.set rest k v

/-- The struct `DataRow`. -/
structure DataRow where
  Data : Data
  deriving DecidableEq, Repr

/-- `NewDataRow`. -/
def NewDataRow : DataRow := ⟨[]⟩

/-- `DataRow.getItem`. -/
def DataRow.getItem (r : DataRow) (key : GoString) : Except Error Dyn :=
  match r.Data.lookup key with
  | some v => .ok v
  | none => .error (Error.new "invalid key")

/-- `DataRow.Int`. -/
def DataRow.Int (r : DataRow) (key : GoString) : NullInt64 :=
  match r.getItem key with
  | .error _ => NullInt64.zero
  | .ok value => _int value

/-- `DataRow.Float`. -/
def DataRow.Float (r : DataRow) (key : GoString) : NullFloat64 :=
  match r.getItem key with
  | .error _ => NullFloat64.zero
  | .ok value => _float value

/-- `DataRow.Bool`. -/
def DataRow.Bool (r : DataRow) (key : GoString) : NullBool :=
  match r.getItem key with
  | .error _ => NullBool.zero
  | .ok value => _bool value

/-- `DataRow.String`. -/
def DataRow.String (r : DataRow) (key : GoString) : NullString :=
  match r.getItem key with
  | .error _ => NullString.zero
  | .ok value => _string value

/-- `DataRow.BoolFromInt`. -/
def DataRow.BoolFromInt (r : DataRow) (key : GoString) : NullBool :=
  let value := r.Int key
  if !value.Valid then NullBool.zero else _boolFromInt value

/-- `DataRow.TimeFromUnix`. -/
def DataRow.TimeFromUnix (r : DataRow) (key : GoString) : NullTime :=
  let intValue := r.Int key
  if !intValue.Valid then NullTime.zero else _timeFromUnix intValue

/-- `DataRow.TimeFromRFC3339String`. -/
def DataRow.TimeFromRFC3339String (parseRFC3339 : GoString → Except Error Time) (r : DataRow)
    (key : GoString) : NullTime :=
  let strValue := r.String key
  if !strValue.Valid then NullTime.zero else _timeFromRFC3339String parseRFC3339 strValue

/-! ## `FieldValuePair` accessors -/

/-- `FieldValuePair.Int`. -/
def FieldValuePair.Int (f : FieldValuePair) : NullInt64 := _int f.Value

/-- `FieldValuePair.Float`. -/
def FieldValuePair.Float (f : FieldValuePair) : NullFloat64 := _float f.Value

/-- `FieldValuePair.Bool`. -/
def FieldValuePair.Bool (f : FieldValuePair) : NullBool := _bool f.Value

/-- `FieldValuePair.String`. -/
def FieldValuePair.String (f : FieldValuePair) : NullString := _string f.Value

/-- `FieldValuePair.BoolFromInt`. -/
def FieldValuePair.BoolFromInt (f : FieldValuePair) : NullBool :=
  let value := f.Int
  if !value.Valid then NullBool.zero else _boolFromInt value

/-- `FieldValuePair.Time`. -/
def FieldValuePair.Time (f : FieldValuePair) : NullTime := _time f.Value

/-- `FieldValuePair.TimeFromUnix`. -/
def FieldValuePair.TimeFromUnix (f : FieldValuePair) : NullTime :=
  let intValue := f.Int
  if !intValue.Valid then NullTime.zero else _timeFromUnix intValue

/-- `FieldValuePair.TimeFromRFC3339String`. -/
def FieldValuePair.TimeFromRFC3339String (parseRFC3339 : GoString → Except Error Database.Time)
    (f : FieldValuePair) : NullTime :=
  let strValue := f.String
  if !strValue.Valid then NullTime.zero else _timeFromRFC3339String parseRFC3339 strValue

/-! ## The database client and the executor operations

The client (`sqlx.DB`, `sqlx.Stmt`, `sqlx.Rows`, `sqlx.Row`, `sql.Result`) is
outside the repository. It is modelled as a script fixing the outcome of each
call, and a `World` that counts the statements and cursors that are open and
logs the calls made. -/

/-- One record of a result set: its columns, in order, with their values. -/
abbrev Record : Type := List (GoString × Dyn)

/-- A `sql.Result`: the outcome of `LastInsertId`. -/
structure Result where
  LastInsertId : Except Error Int

/-- The outcomes of the client's calls. `Preparex`, `Exec`, `Queryx` and the
scan behind `QueryRowx` depend on the statement text and the bind values;
`Queryx` yields, for each record `rows.Next` steps to, the outcome of its
`MapScan`. `none` is a `nil` error. -/
structure Client where
  Preparex : GoString → Option Error
  Exec : GoString → List Dyn → Except Error Result
  Queryx : GoString → List Dyn → Except Error (List (Except Error Record))
  QueryRowx : GoString → List Dyn → Except Error Record
  StmtClose : GoString → Option Error
  RowsClose : GoString → Option Error

/-- A call made on the client. -/
inductive Call where
  | Preparex (query : GoString)
  | Exec (args : List Dyn)
  | LastInsertId
  | StmtClose
  | Queryx (args : List Dyn)
  | Next
  | MapScan
  | RowsClose
  | QueryRowx (args : List Dyn)
  | RowMapScan
  deriving DecidableEq, Repr

/-- The resources held on the client and the calls made so far. -/
structure World where
  openStmts : Nat
  openRows : Nat
  calls : List Call
  deriving DecidableEq, Repr

/-- A world with nothing open and no call made. -/
def World.init : World := ⟨0, 0, []⟩

/-- Log a call. -/
def World.call (w : World) (c : Call) : World := { w with calls := w.calls ++ [c] }

/-- A successful `Preparex` leaves one more statement open. -/
def World.acquireStmt (w : World) : World := { w with openStmts := w.openStmts + 1 }

/-- `stmt.Close()` releases the statement, whatever error it reports. -/
def World.releaseStmt (w : World) : World := { w with openStmts := w.openStmts - 1 }

/-- A successful `Queryx` leaves one more cursor open. -/
def World.acquireRows (w : World) : World := { w with openRows := w.openRows + 1 }

/-- `rows.Close()` releases the cursor, whatever error it reports. -/
def World.releaseRows (w : World) : World := { w with openRows := w.openRows - 1 }

/-- The library call `MapScan(dest)`: `dest[column] = value` for each column in turn. -/
def MapScan (dest : Data) (record : Record) : Data :=
  record.foldl (fun m kv => Data.set m kv.1 kv.2) dest

/-- `Insert`. -/
def Insert (db : Client) (table : GoString) (fields : List FieldValuePair) (w : World) :
    Except Error NullInt64 × World :=
  let (cmd, values) := buildInsertCommand table fields
  let w := w.call (.Preparex cmd)
  match db.Preparex cmd with
  | some err => (.error err, w)
  | none =>
    let w := w.acquireStmt
    let w := w.call (.Exec values)
    match db.Exec cmd values with
    | .error err => (.error err, w)
    | .ok result =>
      let w := w.call .LastInsertId
      match result.LastInsertId with
      | .error err => (.error err, w)
      | .ok id =>
        let w := (w.call .StmtClose).releaseStmt
        match db.StmtClose cmd with
        | some err => (.error err, w)
        | none => (.ok ⟨id, true⟩, w)

/-- `Update`. -/
def Update (db : Client) (table : GoString) (fields : List FieldValuePair)
    (where_ : FieldValuePair) (w : World) : Option Error × World :=
  let (cmd, values) := buildUpdateCommand table fields where_
  let w := w.call (.Preparex cmd)
  match db.Preparex cmd with
  | some err => (some err, w)
  | none =>
    let w := w.acquireStmt
    let w := w.call (.Exec values)
    match db.Exec cmd values with
    | .error err => (some err, w)
    | .ok _ =>
      let w := (w.call .StmtClose).releaseStmt
      match db.StmtClose cmd with
      | some err => (some err, w)
      | none => (none, w)

/-- `Delete`. -/
def Delete (db : Client) (table : GoString) (where_ : FieldValuePair) (w : World) :
    Option Error × World :=
  let (cmd, values) := buildDeleteCommand table where_
  let w := w.call (.Preparex cmd)
  match db.Preparex cmd with
  | some err => (some err, w)
  | none =>
    let w := w.acquireStmt
    let w := w.call (.Exec values)
    match db.Exec cmd values with
    | .error err => (some err, w)
    | .ok _ =>
      let w := (w.call .StmtClose).releaseStmt
      match db.StmtClose cmd with
      | some err => (some err, w)
      | none => (none, w)

/-- The `for rows.Next()` loop of `Select` over the records the cursor still
yields; `.error` is the early `return nil, err`. -/
def selectLoop : List (Except Error Record) → List DataRow → World →
    Except Error (List DataRow) × World
  | [], items, w => (.ok items, w.call .Next)
  | scan :: rest, items, w =>
    let w := w.call .Next
    let row := NewDataRow
    let w := w.call .MapScan
    match scan with
    | .error err => (.error err, w)
    | .ok record => selectLoop rest (items ++ [{ row with Data := MapScan row.Data record }]) w

/-- `Select`. -/
def Select (db : Client) (query : GoString) (values : List Dyn) (w : World) :
    Except Error (List DataRow) × World :=
  let w := w.call (.Preparex query)
  match db.Preparex query with
  | some err => (.error err, w)
  | none =>
    let w := w.acquireStmt
    let w := w.call (.Queryx values)
    match db.Queryx query values with
    | .error err => (.error err, w)
    | .ok rows =>
      let w := w.acquireRows
      match selectLoop rows [] w with
      | (.error err, w) => (.error err, w)
      | (.ok items, w) =>
        let w := (w.call .RowsClose).releaseRows
        match db.RowsClose query with
        | some err => (.error err, w)
        | none =>
          let w := (w.call .StmtClose).releaseStmt
          match db.StmtClose query with
          | some err => (.error err, w)
          | none => (.ok items, w)

/-- `SelectRow`. The `sqlx.Row` behind `QueryRowx` closes its own cursor inside
`MapScan`, so no cursor stays open after the scan. -/
def SelectRow (db : Client) (query : GoString) (values : List Dyn) (w : World) :
    Except Error DataRow × World :=
  let w := w.call (.Preparex query)
  match db.Preparex query with
  | some err => (.error err, w)
  | none =>
    let w := w.acquireStmt
    let w := w.call (.QueryRowx values)
    let result := db.QueryRowx query values
    let row := NewDataRow
    let w := w.call .RowMapScan
    match result with
    | .error err => (.error err, w)
    | .ok record =>
      let row := { row with Data := MapScan row.Data record }
      let w := (w.call .StmtClose).releaseStmt
      match db.StmtClose query with
      | some err => (.error err, w)
      | none => (.ok row, w)

/-- Every statement and cursor acquired since `w₀` has been released in `w`. -/
def World.releasedSince (w₀ w : World) : Prop :=
  w.openStmts = w₀.openStmts ∧ w.openRows = w₀.openRows

instance (w₀ w : World) : Decidable (World.releasedSince w₀ w) := by
  unfold World.releasedSince; exact inferInstance

/-- A client on which every call succeeds: `Exec` reports identifier `4`, a
query yields the given records. -/
def okClient (records : List Record) : Client where
  Preparex := fun _ => none
  Exec := fun _ _ => .ok ⟨.ok 4⟩
  Queryx := fun _ _ => .ok (records.map .ok)
  QueryRowx := fun _ _ => match records with
    | [] => .error Error.ErrNoRows
    | r :: _ => .ok r
  StmtClose := fun _ => none
  RowsClose := fun _ => none

/-- The client of `okClient` whose `Exec` fails. -/
def execFailClient : Client := { okClient [] with Exec := fun _ _ => .error (Error.client 1) }

/-- The client of `okClient` whose second `MapScan` fails. -/
def scanFailClient : Client :=
  { okClient [] with Queryx := fun _ _ => .ok [.ok [("id", .int64 1)], .error (Error.client 2)] }

/-! ## Placeholders in a statement text -/

/-- The `?` placeholders of a statement text: the `?` characters outside
backtick-quoted identifiers. `quoted` tells whether the scan is inside a quoted
identifier; every backtick toggles it (a doubled backtick, the escape, toggles
twice). -/
def scanPlaceholders : Bool → List Char → Nat
  | _, [] => 0
  | quoted, c :: cs =>
    if c = '`' then scanPlaceholders (!quoted) cs
    else if c = '?' ∧ quoted = false then scanPlaceholders quoted cs + 1
    else scanPlaceholders quoted cs

/-- Whether the scan of `scanPlaceholders` is inside a quoted identifier after `cs`. -/
def scanState : Bool → List Char → Bool
  | quoted, [] => quoted
  | quoted, c :: cs => if c = '`' then scanState (!quoted) cs else scanState quoted cs

/-- Number of `?` placeholders of a statement text. -/
def countPlaceholders (sql : GoString) : Nat := scanPlaceholders false sql.toList

/-- An identifier that holds no backtick, so that it cannot end its own quoting. -/
def plainIdent (s : GoString) : Prop := '`' ∉ s.toList

instance (s : GoString) : Decidable (plainIdent s) := by
  unfold plainIdent; exact inferInstance

/-- A backtick-quoted identifier, as `fmt.Sprintf` with the verb between backticks writes it. -/
def quoteIdent (s : GoString) : GoString := "`" ++ s ++ "`"

/-- The INSERT text the specification describes for table `t` and columns `keys`. -/
def insertText (t : GoString) (keys : List GoString) : GoString :=
  "INSERT INTO " ++ quoteIdent t ++ "(" ++ ", ".intercalate (keys.map quoteIdent) ++
    ") VALUES (" ++ ", ".intercalate (keys.map fun _ => "?") ++ ");"

/-- The UPDATE text the specification describes for table `t`, assigned columns
`keys` and where column `w`. -/
def updateText (t : GoString) (keys : List GoString) (w : GoString) : GoString :=
  "UPDATE " ++ quoteIdent t ++ " SET " ++ ", ".intercalate (keys.map fun k => quoteIdent k ++ "=?") ++
    " WHERE " ++ quoteIdent w ++ "=?"

/-- The DELETE text the specification describes for table `t` and where column `w`. -/
def deleteText (t : GoString) (w : GoString) : GoString :=
  "DELETE FROM " ++ quoteIdent t ++ " WHERE " ++ quoteIdent w ++ "=?"

/-- The client of `okClient` whose `Preparex` fails. -/
def prepareFailClient : Client := { okClient [] with Preparex := fun _ => some (Error.client 4) }

/-- The client of `okClient` whose `LastInsertId` fails. -/
def lastIdFailClient : Client :=
  { okClient [] with Exec := fun _ _ => .ok ⟨.error (Error.client 5)⟩ }

/-- The library's scan of a `sqlx.Row`, as `QueryRowx(...).MapScan` performs it on
the outcome of the query: the query's own error if it failed, `sql.ErrNoRows`
if the result set is empty, else the scan of the first record. -/
def rowScan : Except Error (List (Except Error Record)) → Except Error Record
  | .error err => .error err
  | .ok [] => .error Error.ErrNoRows
  | .ok (first :: _) => first

/-- How many of the five base coercions accept the value. -/
def validCount (v : Dyn) : Nat :=
  [(_int v).Valid, (_string v).Valid, (_float v).Valid, (_bool v).Valid, (_time v).Valid].count
    true

/-- A parser standing for `time.Parse(time.RFC3339, ·)` on two sample texts:
it accepts `1970-01-01T00:01:00Z` (sixty seconds after the epoch) and rejects
the rest. -/
def sampleParse : GoString → Except Error Time := fun s =>
  if s = "1970-01-01T00:01:00Z" then .ok ⟨60, 0, false⟩ else .error (Error.new "parsing time")

example : (Insert lastIdFailClient "t" [⟨"a", .int 1⟩] World.init).1 = .error (Error.client 5) := by
  decide
example : (SelectRow (okClient []) "q" [] World.init).1 = .error Error.ErrNoRows := by decide
example : (Select (okClient []) "q" [] World.init).1 = .ok [] := by decide
example : (Select (okClient [[("id", .int64 1), ("id", .int64 2)], [("n", .string "x")]]) "q" []
    World.init).1 = .ok [⟨[("id", .int64 2)]⟩, ⟨[("n", .string "x")]⟩] := by decide
example : (DataRow.mk [("a", .int 7)]).TimeFromUnix "a" = ⟨⟨7, 0, true⟩, true⟩ := by decide
example : (DataRow.mk [("a", .int 7)]).TimeFromUnix "b" = ⟨Time.zero, false⟩ := by decide
example : (DataRow.mk [("a", .string "1970-01-01T00:01:00Z")]).TimeFromRFC3339String sampleParse
    "a" = ⟨⟨60, 0, false⟩, true⟩ := by decide
example : (DataRow.mk [("a", .string "yesterday")]).TimeFromRFC3339String sampleParse "a" =
    ⟨Time.zero, false⟩ := by decide
example : validCount (.int 1) = 1 ∧ validCount (.int8 1) = 0 ∧ validCount (.string "1") = 1 := by
  decide
example : (Insert execFailClient "t" [⟨"a", .int 1⟩] World.init).2.openStmts = 1 := by decide
example : (Insert (okClient []) "t" [⟨"a", .int 1⟩] World.init).2.openStmts = 0 := by decide
example : (Insert (okClient []) "t" [⟨"a", .int 1⟩] World.init).1 = .ok ⟨4, true⟩ := by decide
example : (Select scanFailClient "q" [] World.init).2.openRows = 1 := by decide
example : countPlaceholders (buildDeleteCommand "t" ⟨"a`=? OR `b", .int 1⟩).1 = 2 := by decide
example : countPlaceholders (buildInsertCommand "t?" [⟨"a?", .int 1⟩, ⟨"b", .int 1⟩]).1 = 2 := by
  decide
example : insertText "t" ["a", "b"] = "INSERT INTO `t`(`a`, `b`) VALUES (?, ?);" := by decide
example : updateText "t" ["a", "b"] "c" = "UPDATE `t` SET `a`=?, `b`=? WHERE `c`=?" := by decide

example : (DataRow.mk [("a", .int 7), ("s", .string "x")]).Int "a" = ⟨7, true⟩ := by decide
example : (DataRow.mk [("a", .int 7), ("s", .string "x")]).Int "s" = ⟨0, false⟩ := by decide
example : (DataRow.mk [("a", .int 7), ("s", .string "x")]).BoolFromInt "a" = ⟨false, true⟩ := by
  decide
example : (FieldValuePair.mk "a" (.int8 7)).Int = ⟨0, false⟩ := by decide

example : buildInsertCommand "t" [⟨"a", .int 1⟩, ⟨"b", .string "x"⟩] =
    ("INSERT INTO `t`(`a`, `b`) VALUES (?, ?);", [.int 1, .string "x"]) := by decide
example : buildInsertCommand "t" [] = ("INSERT INTO `t`() VALUES ();", []) := by decide
example : buildUpdateCommand "t" [⟨"a", .int 1⟩, ⟨"b", .string "x"⟩] ⟨"id", .int 3⟩ =
    ("UPDATE `t` SET `a`=?, `b`=? WHERE `id`=?", [.int 1, .string "x", .int 3]) := by decide
example : buildDeleteCommand "t" ⟨"id", .int 3⟩ =
    ("DELETE FROM `t` WHERE `id`=?", [.int 3]) := by decide

/-! ## The statement builders: loop invariants -/

theorem intercalate_go_cons (acc s a : String) (l : List String) :
    String.intercalate.go acc s (a :: l) = String.intercalate.go (acc ++ s ++ a) s l := rfl

theorem intercalate_go_append (s : String) (l : List String) (acc pre : String) :
    String.intercalate.go (pre ++ acc) s l = pre ++ String.intercalate.go acc s l := by
  induction l generalizing acc with
  | nil => rfl
  | cons a l ih =>
    rw [intercalate_go_cons, intercalate_go_cons, String.append_assoc, String.append_assoc, ih,
      String.append_assoc]

theorem intercalate_cons_cons (s a b : String) (l : List String) :
    s.intercalate (a :: b :: l) = a ++ (s ++ s.intercalate (b :: l)) := by
  show String.intercalate.go a s (b :: l) = a ++ (s ++ String.intercalate.go b s l)
  rw [intercalate_go_cons, String.append_assoc, intercalate_go_append, intercalate_go_append]

theorem intercalate_singleton (s a : String) : s.intercalate [a] = a := rfl

theorem intercalate_nil (s : String) : s.intercalate [] = "" := rfl

theorem insertLoop_eq (n : Nat) (rest : List FieldValuePair) (i : Nat) (cmd ph : String)
    (vals : List Dyn) (h : i + rest.length = n) :
    insertLoop n i rest (cmd, ph, vals) =
      (cmd ++ ", ".intercalate (rest.map fun o => quoteIdent o.Key),
        ph ++ ", ".intercalate (rest.map fun _ => "?"),
        vals ++ rest.map fun o => o.Value) := by
  induction rest generalizing i cmd ph vals with
  | nil => simp [insertLoop, intercalate_nil]
  | cons o rest ih =>
    cases rest with
    | nil =>
      have hlt : ¬ ((i : Int) < (n : Int) - 1) := by simp at h; omega
      simp [insertLoop, hlt, intercalate_singleton, quoteIdent, String.append_assoc]
    | cons o' rest =>
      have hlt : (i : Int) < (n : Int) - 1 := by simp at h; omega
      have h' : i + 1 + (o' :: rest).length = n := by simp at h ⊢; omega
      rw [insertLoop]
      simp only [hlt, decide_True, if_true]
      rw [ih (i + 1) _ _ _ h']
      simp [List.map_cons, intercalate_cons_cons, quoteIdent, String.append_assoc]
      constructor <;> (apply String.ext; simp [String.data_append])

theorem updateLoop_eq (n : Nat) (rest : List FieldValuePair) (i : Nat) (cmd : String)
    (vals : List Dyn) (h : i + rest.length = n) :
    updateLoop n i rest (cmd, vals) =
      (cmd ++ ", ".intercalate (rest.map fun o => quoteIdent o.Key ++ "=?"),
        vals ++ rest.map fun o => o.Value) := by
  induction rest generalizing i cmd vals with
  | nil => simp [updateLoop, intercalate_nil]
  | cons o rest ih =>
    cases rest with
    | nil =>
      have hlt : ¬ ((i : Int) < (n : Int) - 1) := by simp at h; omega
      simp [updateLoop, hlt, intercalate_singleton, quoteIdent, String.append_assoc]
    | cons o' rest =>
      have hlt : (i : Int) < (n : Int) - 1 := by simp at h; omega
      have h' : i + 1 + (o' :: rest).length = n := by simp at h ⊢; omega
      rw [updateLoop]
      simp only [hlt, if_true]
      rw [ih (i + 1) _ _ h']
      simp [List.map_cons, intercalate_cons_cons, quoteIdent, String.append_assoc]
      apply String.ext; simp [String.data_append]

theorem buildInsertCommand_eq (table : String) (fields : List FieldValuePair) :
    buildInsertCommand table fields =
      (insertText table (fields.map fun o => o.Key), fields.map fun o => o.Value) := by
  simp [buildInsertCommand, insertLoop_eq fields.length fields 0 _ _ _ (by simp), insertText,
    quoteIdent, String.append_assoc, Function.comp_def]
  apply String.ext; simp [String.data_append]

theorem buildUpdateCommand_eq (table : String) (fields : List FieldValuePair)
    (where_ : FieldValuePair) :
    buildUpdateCommand table fields where_ =
      (updateText table (fields.map fun o => o.Key) where_.Key,
        (fields.map fun o => o.Value) ++ [where_.Value]) := by
  simp [buildUpdateCommand, updateLoop_eq fields.length fields 0 _ _ (by simp), updateText,
    quoteIdent, String.append_assoc, Function.comp_def]
  apply String.ext; simp [String.data_append]

theorem buildDeleteCommand_eq (table : String) (where_ : FieldValuePair) :
    buildDeleteCommand table where_ = (deleteText table where_.Key, [where_.Value]) := by
  simp [buildDeleteCommand, deleteText, quoteIdent, String.append_assoc]
  apply String.ext; simp [String.data_append]

/-! ## The statement builders: bind values and statement text -/

/-- C1: for every table name and every ordered list of field pairs, the bind
values `buildInsertCommand` returns are the fields' values in their original
order: the list is `fields` mapped to `.Value`, its length is the number of
fields, and its `i`-th element is the `i`-th field's value (none at all past the
end), so no pair is dropped, duplicated or reordered. -/
theorem buildInsertCommand_values (table : String) (fields : List FieldValuePair) :
    (buildInsertCommand table fields).2 = fields.map (fun o => o.Value) ∧
    (buildInsertCommand table fields).2.length = fields.length ∧
    ∀ i : Nat, (buildInsertCommand table fields).2[i]? = (fields[i]?).map (fun o => o.Value) := by
  rw [buildInsertCommand_eq]
  refine ⟨rfl, by simp, fun i => by simp⟩

/-- C2: for every table name `t` and fields with keys `k1..kn` (`n ≥ 0`), the
text `buildInsertCommand` returns is exactly `INSERT INTO`, the backtick-quoted
table, the parenthesised backtick-quoted keys joined by comma-space, `VALUES`,
the parenthesised `n` placeholders `?` joined by comma-space, and the closing
semicolon; for `n = 0` both lists are empty. -/
theorem buildInsertCommand_text (table : String) (fields : List FieldValuePair) :
    (buildInsertCommand table fields).1 =
      "INSERT INTO `" ++ table ++ "`(" ++
        ", ".intercalate (fields.map fun o => "`" ++ o.Key ++ "`") ++
        ") VALUES (" ++ ", ".intercalate (List.replicate fields.length "?") ++ ");" ∧
    (buildInsertCommand table []).1 = "INSERT INTO `" ++ table ++ "`() VALUES ();" := by
  constructor
  · rw [buildInsertCommand_eq]
    simp [insertText, quoteIdent, String.append_assoc, Function.comp_def]
    apply String.ext; simp [String.data_append]
  · simp [buildInsertCommand, insertLoop, String.append_assoc]

/-- C3: for every table name, every list of field pairs (the empty list
included) and every where-pair, the bind values `buildUpdateCommand` returns are
the fields' values in their original order followed by the where-pair's value:
the list has length `len(fields) + 1`, its last element is the where value, and
its `i`-th element is the value of the `i`-th pair of `fields` followed by the
where-pair. -/
theorem buildUpdateCommand_values (table : String) (fields : List FieldValuePair)
    (where_ : FieldValuePair) :
    (buildUpdateCommand table fields where_).2 = fields.map (fun o => o.Value) ++ [where_.Value] ∧
    (buildUpdateCommand table fields where_).2.length = fields.length + 1 ∧
    (buildUpdateCommand table fields where_).2.getLast? = some where_.Value ∧
    ∀ i : Nat, (buildUpdateCommand table fields where_).2[i]? =
      ((fields ++ [where_])[i]?).map (fun o => o.Value) := by
  rw [buildUpdateCommand_eq]
  refine ⟨rfl, by simp, by simp, fun i => ?_⟩
  rw [← List.getElem?_map]
  simp

/-- C4: for every table name `t`, fields with keys `k1..kn` and where-pair with
key `w`, the text `buildUpdateCommand` returns is exactly `UPDATE`, the
backtick-quoted table, `SET`, one assignment (backtick-quoted key, `=?`) per
field in field order joined by comma-space, and a single condition `WHERE` on
the backtick-quoted `w` with `=?`. -/
theorem buildUpdateCommand_text (table : String) (fields : List FieldValuePair)
    (where_ : FieldValuePair) :
    (buildUpdateCommand table fields where_).1 =
      "UPDATE `" ++ table ++ "` SET " ++
        ", ".intercalate (fields.map fun o => "`" ++ o.Key ++ "`=?") ++
        " WHERE `" ++ where_.Key ++ "`=?" := by
  rw [buildUpdateCommand_eq]
  simp [updateText, quoteIdent, String.append_assoc, Function.comp_def]
  apply String.ext; simp [String.data_append]

/-- C5: for every table name `t` and where-pair `(w, v)`, `buildDeleteCommand`
returns the text `DELETE FROM` backtick-quoted `t` `WHERE` backtick-quoted `w`
`=?` together with the one-element bind list `[v]`. -/
theorem buildDeleteCommand_result (table : String) (where_ : FieldValuePair) :
    buildDeleteCommand table where_ =
      ("DELETE FROM `" ++ table ++ "` WHERE `" ++ where_.Key ++ "`=?", [where_.Value]) ∧
    (buildDeleteCommand table where_).2.length = 1 := by
  simp [buildDeleteCommand]

/-- C7: the text each builder returns depends only on the table name and the
pairs' keys: two field lists with the same keys in the same order and two
where-pairs with the same key give the same INSERT, UPDATE and DELETE text,
whatever the values. -/
theorem builders_text_independent_of_values (table : String)
    (fields fields' : List FieldValuePair) (where_ where' : FieldValuePair)
    (hk : fields.map (fun o => o.Key) = fields'.map (fun o => o.Key))
    (hw : where_.Key = where'.Key) :
    (buildInsertCommand table fields).1 = (buildInsertCommand table fields').1 ∧
    (buildUpdateCommand table fields where_).1 = (buildUpdateCommand table fields' where').1 ∧
    (buildDeleteCommand table where_).1 = (buildDeleteCommand table where').1 := by
  simp only [buildInsertCommand_eq, buildUpdateCommand_eq, buildDeleteCommand_eq, hk, hw,
    and_self]

/-- C7 at a concrete input: same keys, different values. -/
theorem builders_text_independent_of_values_witness :
    (buildInsertCommand "t" [⟨"a", .int 1⟩, ⟨"b", .string "x"⟩]).1 =
      (buildInsertCommand "t" [⟨"a", .string "1; DROP"⟩, ⟨"b", .nil⟩]).1 ∧
    (buildUpdateCommand "t" [⟨"a", .int 1⟩, ⟨"b", .string "x"⟩] ⟨"id", .int 3⟩).1 =
      (buildUpdateCommand "t" [⟨"a", .string "1; DROP"⟩, ⟨"b", .nil⟩] ⟨"id", .bool true⟩).1 ∧
    (buildDeleteCommand "t" ⟨"id", .int 3⟩).1 = (buildDeleteCommand "t" ⟨"id", .bool true⟩).1 :=
  builders_text_independent_of_values "t" [⟨"a", .int 1⟩, ⟨"b", .string "x"⟩]
    [⟨"a", .string "1; DROP"⟩, ⟨"b", .nil⟩] ⟨"id", .int 3⟩ ⟨"id", .bool true⟩ (by decide)
    (by decide)

/-! ## Placeholders and bind values -/

theorem scanPlaceholders_append (a b : List Char) (q : Bool) :
    scanPlaceholders q (a ++ b) = scanPlaceholders q a + scanPlaceholders (scanState q a) b := by
  induction a generalizing q with
  | nil => simp [scanPlaceholders, scanState]
  | cons c a ih =>
    simp only [List.cons_append, scanPlaceholders, scanState]
    split_ifs <;> simp [ih]
    omega

theorem scanState_append (a b : List Char) (q : Bool) :
    scanState q (a ++ b) = scanState (scanState q a) b := by
  induction a generalizing q with
  | nil => simp [scanState]
  | cons c a ih =>
    simp only [List.cons_append, scanState]
    split_ifs <;> simp [ih]

theorem scanState_plain (a : List Char) (h : '`' ∉ a) (q : Bool) : scanState q a = q := by
  induction a with
  | nil => rfl
  | cons c a ih =>
    simp only [List.mem_cons, not_or] at h
    simp [scanState, Ne.symm h.1, ih h.2]

theorem scanPlaceholders_quoted_plain (a : List Char) (h : '`' ∉ a) :
    scanPlaceholders true a = 0 := by
  induction a with
  | nil => rfl
  | cons c a ih =>
    simp only [List.mem_cons, not_or] at h
    simp [scanPlaceholders, Ne.symm h.1, ih h.2]

theorem scan_append_unquoted (a b : List Char) (m n : Nat)
    (ha : scanPlaceholders false a = m ∧ scanState false a = false)
    (hb : scanPlaceholders false b = n ∧ scanState false b = false) :
    scanPlaceholders false (a ++ b) = m + n ∧ scanState false (a ++ b) = false := by
  rw [scanPlaceholders_append, scanState_append, ha.1, ha.2, hb.1, hb.2]
  exact ⟨rfl, rfl⟩

theorem scan_quoteIdent (k : String) (h : plainIdent k) :
    scanPlaceholders false (quoteIdent k).data = 0 ∧ scanState false (quoteIdent k).data = false := by
  have h' : '`' ∉ k.data := h
  have hd : (quoteIdent k).data = '`' :: (k.data ++ ['`']) := by
    simp [quoteIdent, String.data_append]
  rw [hd]
  constructor
  · simp [scanPlaceholders, scanPlaceholders_append, scanPlaceholders_quoted_plain _ h',
      scanState_plain _ h']
  · simp [scanState, scanState_append, scanState_plain _ h']

theorem scan_intercalate (l : List String) (c : Nat)
    (h : ∀ x ∈ l, scanPlaceholders false x.data = c ∧ scanState false x.data = false) :
    scanPlaceholders false (", ".intercalate l).data = c * l.length ∧
      scanState false (", ".intercalate l).data = false := by
  induction l with
  | nil => simp [intercalate_nil, scanPlaceholders, scanState]
  | cons a l ih =>
    cases l with
    | nil => simpa [intercalate_singleton] using h a (by simp)
    | cons b l =>
      have hrest := ih (fun x hx => h x (List.mem_cons_of_mem _ hx))
      have hsep : scanPlaceholders false ", ".data = 0 ∧ scanState false ", ".data = false := by
        decide
      have := scan_append_unquoted _ _ _ _ (h a (by simp))
        (scan_append_unquoted _ _ _ _ hsep hrest)
      rw [intercalate_cons_cons, String.data_append, String.data_append]
      refine ⟨?_, this.2⟩
      rw [this.1]
      simp only [List.length_cons]
      ring

theorem countPlaceholders_insertText (t : String) (keys : List String) (ht : plainIdent t)
    (hk : ∀ k ∈ keys, plainIdent k) : countPlaceholders (insertText t keys) = keys.length := by
  have h1 : scanPlaceholders false "INSERT INTO ".data = 0 ∧
      scanState false "INSERT INTO ".data = false := by decide
  have h2 := scan_quoteIdent t ht
  have h3 : scanPlaceholders false "(".data = 0 ∧ scanState false "(".data = false := by decide
  have h4 := scan_intercalate (keys.map quoteIdent) 0 (by
    intro x hx
    obtain ⟨k, hkm, rfl⟩ := List.mem_map.1 hx
    exact scan_quoteIdent k (hk k hkm))
  have h5 : scanPlaceholders false ") VALUES (".data = 0 ∧
      scanState false ") VALUES (".data = false := by decide
  have h6 := scan_intercalate (keys.map fun _ => "?") 1 (by
    intro x hx
    obtain ⟨k, _, rfl⟩ := List.mem_map.1 hx
    decide)
  have h7 : scanPlaceholders false ");".data = 0 ∧ scanState false ");".data = false := by decide
  have := scan_append_unquoted _ _ _ _ (scan_append_unquoted _ _ _ _ (scan_append_unquoted _ _ _ _
    (scan_append_unquoted _ _ _ _ (scan_append_unquoted _ _ _ _
    (scan_append_unquoted _ _ _ _ h1 h2) h3) h4) h5) h6) h7
  simp only [countPlaceholders, insertText, String.toList, String.data_append]
  rw [this.1]
  simp

theorem scan_assignment (k : String) (h : plainIdent k) :
    scanPlaceholders false (quoteIdent k ++ "=?").data = 1 ∧
      scanState false (quoteIdent k ++ "=?").data = false := by
  have h2 : scanPlaceholders false "=?".data = 1 ∧ scanState false "=?".data = false := by decide
  have := scan_append_unquoted _ _ _ _ (scan_quoteIdent k h) h2
  rw [String.data_append]
  simpa using this

theorem countPlaceholders_updateText (t : String) (keys : List String) (w : String)
    (ht : plainIdent t) (hk : ∀ k ∈ keys, plainIdent k) (hw : plainIdent w) :
    countPlaceholders (updateText t keys w) = keys.length + 1 := by
  have h1 : scanPlaceholders false "UPDATE ".data = 0 ∧
      scanState false "UPDATE ".data = false := by decide
  have h2 := scan_quoteIdent t ht
  have h3 : scanPlaceholders false " SET ".data = 0 ∧ scanState false " SET ".data = false := by
    decide
  have h4 := scan_intercalate (keys.map fun k => quoteIdent k ++ "=?") 1 (by
    intro x hx
    obtain ⟨k, hkm, rfl⟩ := List.mem_map.1 hx
    exact scan_assignment k (hk k hkm))
  have h5 : scanPlaceholders false " WHERE ".data = 0 ∧
      scanState false " WHERE ".data = false := by decide
  have h6 := scan_quoteIdent w hw
  have h7 : scanPlaceholders false "=?".data = 1 ∧ scanState false "=?".data = false := by decide
  have := scan_append_unquoted _ _ _ _ (scan_append_unquoted _ _ _ _ (scan_append_unquoted _ _ _ _
    (scan_append_unquoted _ _ _ _ (scan_append_unquoted _ _ _ _
    (scan_append_unquoted _ _ _ _ h1 h2) h3) h4) h5) h6) h7
  simp only [countPlaceholders, updateText, String.toList, String.data_append]
  rw [this.1]
  simp

theorem countPlaceholders_deleteText (t w : String) (ht : plainIdent t) (hw : plainIdent w) :
    countPlaceholders (deleteText t w) = 1 := by
  have h1 : scanPlaceholders false "DELETE FROM ".data = 0 ∧
      scanState false "DELETE FROM ".data = false := by decide
  have h2 := scan_quoteIdent t ht
  have h5 : scanPlaceholders false " WHERE ".data = 0 ∧
      scanState false " WHERE ".data = false := by decide
  have h6 := scan_quoteIdent w hw
  have h7 : scanPlaceholders false "=?".data = 1 ∧ scanState false "=?".data = false := by decide
  have := scan_append_unquoted _ _ _ _ (scan_append_unquoted _ _ _ _
    (scan_append_unquoted _ _ _ _ (scan_append_unquoted _ _ _ _ h1 h2) h5) h6) h7
  simp only [countPlaceholders, deleteText, String.toList, String.data_append]
  rw [this.1]

/-- C6, as stated, fails: a where key that holds a backtick ends its own
quoting, and the DELETE text built for it carries two `?` placeholders (two `?`
characters, both outside quoted identifiers) for a single bind value. -/
theorem placeholders_exceed_values_for_backtick_key :
    (buildDeleteCommand "t" ⟨"a`=? OR `b", .int 1⟩).1 = "DELETE FROM `t` WHERE `a`=? OR `b`=?" ∧
    countPlaceholders (buildDeleteCommand "t" ⟨"a`=? OR `b", .int 1⟩).1 = 2 ∧
    (buildDeleteCommand "t" ⟨"a`=? OR `b", .int 1⟩).1.toList.count '?' = 2 ∧
    (buildDeleteCommand "t" ⟨"a`=? OR `b", .int 1⟩).2.length = 1 ∧
    countPlaceholders (buildDeleteCommand "t" ⟨"a`=? OR `b", .int 1⟩).1 ≠
      (buildDeleteCommand "t" ⟨"a`=? OR `b", .int 1⟩).2.length := by
  decide

/-- C6, amended: whenever the table name and every key hold no backtick, each
builder returns as many `?` placeholders in its text as bind values, and the
two run in the same order: the text names the pairs' keys in pair order
(INSERT: the column list; UPDATE: the assignments, then the where column;
DELETE: the where column) and the bind values are those pairs' values in the
same order. -/
theorem placeholders_match_values (table : String) (fields : List FieldValuePair)
    (where_ : FieldValuePair) (ht : plainIdent table) (hf : ∀ o ∈ fields, plainIdent o.Key)
    (hw : plainIdent where_.Key) :
    (countPlaceholders (buildInsertCommand table fields).1 =
        (buildInsertCommand table fields).2.length ∧
      countPlaceholders (buildUpdateCommand table fields where_).1 =
        (buildUpdateCommand table fields where_).2.length ∧
      countPlaceholders (buildDeleteCommand table where_).1 =
        (buildDeleteCommand table where_).2.length) ∧
    (buildInsertCommand table fields =
        (insertText table (fields.map fun o => o.Key), fields.map fun o => o.Value) ∧
      buildUpdateCommand table fields where_ =
        (updateText table (fields.map fun o => o.Key) where_.Key,
          (fields ++ [where_]).map fun o => o.Value) ∧
      buildDeleteCommand table where_ = (deleteText table where_.Key, [where_.Value])) := by
  have hk : ∀ k ∈ fields.map (fun o => o.Key), plainIdent k := by
    intro k hk
    obtain ⟨o, ho, rfl⟩ := List.mem_map.1 hk
    exact hf o ho
  refine ⟨⟨?_, ?_, ?_⟩, buildInsertCommand_eq table fields, ?_, buildDeleteCommand_eq table where_⟩
  · rw [buildInsertCommand_eq]
    simpa using countPlaceholders_insertText table _ ht hk
  · rw [buildUpdateCommand_eq]
    simpa using countPlaceholders_updateText table _ _ ht hk hw
  · rw [buildDeleteCommand_eq]
    simpa using countPlaceholders_deleteText table _ ht hw
  · rw [buildUpdateCommand_eq]
    simp

/-- C6, amended, at a concrete input: a key holding `?` but no backtick. -/
theorem placeholders_match_values_witness :
    (plainIdent "t" ∧ (∀ o ∈ [(⟨"a?", .int 1⟩ : FieldValuePair), ⟨"b", .string "x"⟩],
        plainIdent o.Key) ∧ plainIdent "id") ∧
    countPlaceholders (buildInsertCommand "t" [⟨"a?", .int 1⟩, ⟨"b", .string "x"⟩]).1 = 2 ∧
    countPlaceholders
      (buildUpdateCommand "t" [⟨"a?", .int 1⟩, ⟨"b", .string "x"⟩] ⟨"id", .int 3⟩).1 = 3 ∧
    countPlaceholders (buildDeleteCommand "t" ⟨"id", .int 3⟩).1 = 1 :=
  ⟨by decide,
    (placeholders_match_values "t" [⟨"a?", .int 1⟩, ⟨"b", .string "x"⟩] ⟨"id", .int 3⟩
      (by decide) (by decide) (by decide)).1⟩

/-! ## Typed accessors -/

theorem toInt64_of_inSigned (n : Int) (h : inSigned 64 n) : toInt64 n = n := by
  unfold inSigned at h
  unfold toInt64
  norm_num at h
  omega

theorem inSigned_32_64 (n : Int) (h : inSigned 32 n) : inSigned 64 n := by
  unfold inSigned at *
  norm_num at *
  omega

/-- C8, as stated, fails: a well-formed 8-bit or 16-bit signed integer is not
accepted by the Integer accessor, neither by `FieldValuePair.Int` nor by
`DataRow.Int` on a key holding it. -/
theorem int_accessor_rejects_int8_int16 :
    Dyn.WellFormed (.int8 5) ∧ Dyn.WellFormed (.int16 5) ∧
    (FieldValuePair.mk "k" (.int8 5)).Int = ⟨0, false⟩ ∧
    (FieldValuePair.mk "k" (.int16 5)).Int = ⟨0, false⟩ ∧
    (DataRow.mk [("k", .int8 5)]).Int "k" = ⟨0, false⟩ ∧
    (DataRow.mk [("k", .int16 5)]).Int "k" = ⟨0, false⟩ := by
  refine ⟨?_, ?_, by decide, by decide, by decide, by decide⟩ <;>
    simp [Dyn.WellFormed, inSigned]

/-- C8, amended: for every stored value that is a well-formed platform `int`,
`int32` or `int64`, the Integer accessor (`FieldValuePair.Int`, and
`DataRow.Int` on a key holding it) returns `Valid = true` with `Int64` equal to
the stored number. -/
theorem int_accessor_accepts_int_int32_int64 (key : String) (n : Int) (v : Dyn)
    (hv : v = .int n ∨ v = .int32 n ∨ v = .int64 n) (hwf : v.WellFormed) :
    (FieldValuePair.mk key v).Int = ⟨n, true⟩ ∧
    ∀ r : DataRow, r.Data.lookup key = some v → r.Int key = ⟨n, true⟩ := by
  have hint : _int v = ⟨n, true⟩ := by
    rcases hv with rfl | rfl | rfl
    · simp [_int, toInt64_of_inSigned n hwf]
    · simp [_int, toInt64_of_inSigned n (inSigned_32_64 n hwf)]
    · simp [_int]
  refine ⟨hint, fun r hr => ?_⟩
  simp [DataRow.Int, DataRow.getItem, hr, hint]

/-- C8, amended, at a concrete input: a negative `int32`. -/
theorem int_accessor_accepts_int_int32_int64_witness :
    Dyn.WellFormed (.int32 (-7)) ∧
    (FieldValuePair.mk "k" (.int32 (-7))).Int = ⟨-7, true⟩ ∧
    (DataRow.mk [("s", .string "x"), ("k", .int32 (-7))]).Int "k" = ⟨-7, true⟩ :=
  have hwf : Dyn.WellFormed (.int32 (-7)) := by simp [Dyn.WellFormed, inSigned]
  ⟨hwf,
    (int_accessor_accepts_int_int32_int64 "k" (-7) (.int32 (-7)) (Or.inr (Or.inl rfl)) hwf).1,
    (int_accessor_accepts_int_int32_int64 "k" (-7) (.int32 (-7)) (Or.inr (Or.inl rfl)) hwf).2
      _ (by decide)⟩

/-- C10: for every row and every key holding a value that is not of the
accessor's type, the accessor returns `Valid = false` and the zero value of its
type: `Int` on a value that is no signed integer gives `0`, `String` on a
non-string gives the empty string, `Float` on a non-float gives `0.0`, `Bool`
on a non-boolean gives `false`. -/
theorem accessors_reject_mismatched_type (r : DataRow) (key : String) (v : Dyn)
    (hk : r.Data.lookup key = some v) :
    (v.isSignedInt = false → r.Int key = ⟨0, false⟩) ∧
    (v.isString = false → r.String key = ⟨"", false⟩) ∧
    (v.isFloat = false → r.Float key = ⟨Float64.bits 0, false⟩) ∧
    (v.isBool = false → r.Bool key = ⟨false, false⟩) := by
  refine ⟨fun h => ?_, fun h => ?_, fun h => ?_, fun h => ?_⟩ <;>
    cases v <;>
    simp_all [DataRow.Int, DataRow.String, DataRow.Float, DataRow.Bool, DataRow.getItem, _int,
      _string, _float, _bool, Dyn.isSignedInt, Dyn.isString, Dyn.isFloat, Dyn.isBool,
      NullInt64.zero, NullString.zero, NullFloat64.zero, NullBool.zero, Float64.zero]

/-- C10 at a concrete row: the key `name` holds a string, the key `id` an integer. -/
theorem accessors_reject_mismatched_type_witness :
    (DataRow.mk [("id", .int64 4), ("name", .string "12")]).Int "name" = ⟨0, false⟩ ∧
    (DataRow.mk [("id", .int64 4), ("name", .string "12")]).String "id" = ⟨"", false⟩ ∧
    (DataRow.mk [("id", .int64 4), ("name", .string "12")]).Float "id" = ⟨Float64.bits 0, false⟩ ∧
    (DataRow.mk [("id", .int64 4), ("name", .string "12")]).Bool "id" = ⟨false, false⟩ :=
  ⟨(accessors_reject_mismatched_type ⟨[("id", .int64 4), ("name", .string "12")]⟩ "name"
      (.string "12") (by decide)).1 (by decide),
    (accessors_reject_mismatched_type ⟨[("id", .int64 4), ("name", .string "12")]⟩ "id"
      (.int64 4) (by decide)).2.1 (by decide),
    (accessors_reject_mismatched_type ⟨[("id", .int64 4), ("name", .string "12")]⟩ "id"
      (.int64 4) (by decide)).2.2.1 (by decide),
    (accessors_reject_mismatched_type ⟨[("id", .int64 4), ("name", .string "12")]⟩ "id"
      (.int64 4) (by decide)).2.2.2 (by decide)⟩

/-! ## Release of statements and cursors -/

/-- C9 fails on the code: when `Preparex` succeeds and `Exec` fails, `Insert`,
`Update` and `Delete` return the failure with the prepared statement still
open; when a `MapScan` fails, `Select` returns with its cursor and its statement
open; when the scan of `SelectRow` fails (no rows), its statement stays open.
On the successful path each of them closes what it acquired. -/
theorem operations_leak_on_failing_paths :
    ((Insert execFailClient "testing" [⟨"name", .string "Jane Doe"⟩] World.init).1 =
        .error (Error.client 1) ∧
      (Insert execFailClient "testing" [⟨"name", .string "Jane Doe"⟩] World.init).2.openStmts
        = 1) ∧
    (Update execFailClient "testing" [⟨"name", .string "x"⟩] ⟨"id", .int 1⟩
      World.init).2.openStmts = 1 ∧
    (Delete execFailClient "testing" ⟨"id", .int 1⟩ World.init).2.openStmts = 1 ∧
    ((Select scanFailClient "SELECT * FROM testing" [] World.init).1 = .error (Error.client 2) ∧
      (Select scanFailClient "SELECT * FROM testing" [] World.init).2.openStmts = 1 ∧
      (Select scanFailClient "SELECT * FROM testing" [] World.init).2.openRows = 1) ∧
    ((SelectRow (okClient []) "SELECT * FROM testing WHERE id=?" [.int 1] World.init).1 =
        .error Error.ErrNoRows ∧
      (SelectRow (okClient []) "SELECT * FROM testing WHERE id=?" [.int 1]
        World.init).2.openStmts = 1) ∧
    World.releasedSince World.init
      (Insert (okClient []) "testing" [⟨"name", .string "Jane Doe"⟩] World.init).2 ∧
    World.releasedSince World.init
      (Select (okClient [[("id", .int64 1)]]) "SELECT * FROM testing" [] World.init).2 := by
  decide

/-! ## Row accessors: absent keys, own types, derived accessors -/

theorem getItem_of_lookup_none (r : DataRow) (key : String) (h : r.Data.lookup key = none) :
    r.getItem key = .error (Error.new "invalid key") := by
  simp [DataRow.getItem, h]

theorem getItem_of_lookup_some (r : DataRow) (key : String) (v : Dyn)
    (h : r.Data.lookup key = some v) : r.getItem key = .ok v := by
  simp [DataRow.getItem, h]

/-- C11: for every row and every key absent from the row's data, each accessor
(`Int`, `String`, `Float`, `Bool`, `BoolFromInt`, `TimeFromUnix`,
`TimeFromRFC3339String`) returns a result with `Valid = false`; each is a total
function, so none fails. -/
theorem accessors_invalid_on_absent_key (parseRFC3339 : String → Except Error Time)
    (r : DataRow) (key : String) (h : r.Data.lookup key = none) :
    (r.Int key).Valid = false ∧ (r.String key).Valid = false ∧ (r.Float key).Valid = false ∧
    (r.Bool key).Valid = false ∧ (r.BoolFromInt key).Valid = false ∧
    (r.TimeFromUnix key).Valid = false ∧
    (r.TimeFromRFC3339String parseRFC3339 key).Valid = false := by
  have hg := getItem_of_lookup_none r key h
  simp [DataRow.Int, DataRow.String, DataRow.Float, DataRow.Bool, DataRow.BoolFromInt,
    DataRow.TimeFromUnix, DataRow.TimeFromRFC3339String, hg, NullInt64.zero, NullString.zero,
    NullFloat64.zero, NullBool.zero, NullTime.zero]

/-- C11 at a concrete row: the key `missing` is not a column of the row. -/
theorem accessors_invalid_on_absent_key_witness :
    ((DataRow.mk [("id", .int64 4), ("name", .string "Jane Doe")]).Int "missing").Valid = false ∧
    ((DataRow.mk [("id", .int64 4), ("name", .string "Jane Doe")]).BoolFromInt "missing").Valid
      = false ∧
    ((DataRow.mk [("id", .int64 4), ("name", .string "Jane Doe")]).TimeFromRFC3339String
      sampleParse "missing").Valid = false :=
  have h := accessors_invalid_on_absent_key sampleParse
    ⟨[("id", .int64 4), ("name", .string "Jane Doe")]⟩ "missing" (by decide)
  ⟨h.1, h.2.2.2.2.1, h.2.2.2.2.2.2⟩

/-- C12: reading a value back with the accessor of its own type returns it
unchanged and valid: a key holding the string `s` gives `String = (s, valid)`,
holding the boolean `b` gives `Bool = (b, valid)`, holding the 64-bit float `x`
gives `Float = (x, valid)`, and a key holding a 32-bit float gives a valid
`Float`. -/
theorem accessors_read_back_own_type (r : DataRow) (key : String) :
    (∀ s : String, r.Data.lookup key = some (.string s) → r.String key = ⟨s, true⟩) ∧
    (∀ b : Bool, r.Data.lookup key = some (.bool b) → r.Bool key = ⟨b, true⟩) ∧
    (∀ x : Nat, r.Data.lookup key = some (.float64 x) → r.Float key = ⟨Float64.bits x, true⟩) ∧
    (∀ x : Nat, r.Data.lookup key = some (.float32 x) → (r.Float key).Valid = true) := by
  refine ⟨fun s h => ?_, fun b h => ?_, fun x h => ?_, fun x h => ?_⟩ <;>
    simp [DataRow.String, DataRow.Bool, DataRow.Float, getItem_of_lookup_some r key _ h, _string,
      _bool, _float]

/-- C12 at a concrete row holding a boolean, a string and a 64-bit float (given
by its bit pattern), and at a row holding a 32-bit float. -/
theorem accessors_read_back_own_type_witness :
    (DataRow.mk [("bool", .bool true), ("string", .string "string"),
      ("float", .float64 4646786557494624256)]).String "string" = ⟨"string", true⟩ ∧
    (DataRow.mk [("bool", .bool true), ("string", .string "string"),
      ("float", .float64 4646786557494624256)]).Bool "bool" = ⟨true, true⟩ ∧
    (DataRow.mk [("bool", .bool true), ("string", .string "string"),
      ("float", .float64 4646786557494624256)]).Float "float" =
        ⟨Float64.bits 4646786557494624256, true⟩ ∧
    ((DataRow.mk [("f", .float32 1069547520)]).Float "f").Valid = true :=
  ⟨(accessors_read_back_own_type ⟨[("bool", .bool true), ("string", .string "string"),
      ("float", .float64 4646786557494624256)]⟩ "string").1 "string" (by decide),
    (accessors_read_back_own_type ⟨[("bool", .bool true), ("string", .string "string"),
      ("float", .float64 4646786557494624256)]⟩ "bool").2.1 true (by decide),
    (accessors_read_back_own_type ⟨[("bool", .bool true), ("string", .string "string"),
      ("float", .float64 4646786557494624256)]⟩ "float").2.2.1 4646786557494624256 (by decide),
    (accessors_read_back_own_type ⟨[("f", .float32 1069547520)]⟩ "f").2.2.2 1069547520
      (by decide)⟩

/-- C13: for every row and key, `BoolFromInt` is valid exactly when `Int` is;
when `Int` is valid with the integer `n`, `BoolFromInt` is `(true, valid)` for
`n = 1` and `(false, valid)` for every other `n` (zero, negative, greater than
one); when `Int` is invalid (absent key, value that `Int` does not accept) it
is invalid. -/
theorem boolFromInt_valid_iff_int_valid (r : DataRow) (key : String) :
    (r.BoolFromInt key).Valid = (r.Int key).Valid ∧
    (∀ n : Int, r.Int key = ⟨n, true⟩ →
      (n = 1 → r.BoolFromInt key = ⟨true, true⟩) ∧
      (n ≠ 1 → r.BoolFromInt key = ⟨false, true⟩)) ∧
    ((r.Int key).Valid = false → r.BoolFromInt key = ⟨false, false⟩) := by
  refine ⟨?_, fun n h => ⟨fun h1 => ?_, fun h1 => ?_⟩, fun h => ?_⟩
  · unfold DataRow.BoolFromInt _boolFromInt
    cases hv : (r.Int key).Valid
    · simp [hv, NullBool.zero]
    · by_cases h1 : (r.Int key).Int64 = 1 <;> simp [hv, h1]
  · simp [DataRow.BoolFromInt, _boolFromInt, h, h1]
  · simp [DataRow.BoolFromInt, _boolFromInt, h, h1]
  · simp [DataRow.BoolFromInt, h, NullBool.zero]

/-- C13 at the rows of the repository's tests and seed data: the integers `1`,
`0`, `55` and `-1`, a string, and an absent key. -/
theorem boolFromInt_valid_iff_int_valid_witness :
    (DataRow.mk [("bool", .int 1), ("bool2", .int 0)]).BoolFromInt "bool" = ⟨true, true⟩ ∧
    (DataRow.mk [("bool", .int 1), ("bool2", .int 0)]).BoolFromInt "bool2" = ⟨false, true⟩ ∧
    (DataRow.mk [("status", .int64 55)]).BoolFromInt "status" = ⟨false, true⟩ ∧
    (DataRow.mk [("status", .int64 (-1))]).BoolFromInt "status" = ⟨false, true⟩ ∧
    (DataRow.mk [("string", .string "string")]).BoolFromInt "string" = ⟨false, false⟩ ∧
    (DataRow.mk [("string", .string "string")]).BoolFromInt "absent" = ⟨false, false⟩ :=
  ⟨((boolFromInt_valid_iff_int_valid ⟨[("bool", .int 1), ("bool2", .int 0)]⟩ "bool").2.1 1
      (by decide)).1 rfl,
    ((boolFromInt_valid_iff_int_valid ⟨[("bool", .int 1), ("bool2", .int 0)]⟩ "bool2").2.1 0
      (by decide)).2 (by decide),
    ((boolFromInt_valid_iff_int_valid ⟨[("status", .int64 55)]⟩ "status").2.1 55
      (by decide)).2 (by decide),
    ((boolFromInt_valid_iff_int_valid ⟨[("status", .int64 (-1))]⟩ "status").2.1 (-1)
      (by decide)).2 (by decide),
    (boolFromInt_valid_iff_int_valid ⟨[("string", .string "string")]⟩ "string").2.2 (by decide),
    (boolFromInt_valid_iff_int_valid ⟨[("string", .string "string")]⟩ "absent").2.2 (by decide)⟩

/-- C14: for every row and key, with `parseRFC3339` standing for the library's
RFC3339 parse: `TimeFromRFC3339String` is invalid when `String` is invalid; when
the key holds a string the parse rejects, it is invalid (no failure is raised,
the function is total); when the key holds a string the parse accepts, it is
valid with exactly the time the parse yields. -/
theorem timeFromRFC3339String_follows_parse (parseRFC3339 : String → Except Error Time)
    (r : DataRow) (key : String) :
    ((r.String key).Valid = false →
      (r.TimeFromRFC3339String parseRFC3339 key).Valid = false) ∧
    (∀ (s : String) (e : Error), r.Data.lookup key = some (.string s) →
      parseRFC3339 s = .error e → (r.TimeFromRFC3339String parseRFC3339 key).Valid = false) ∧
    (∀ (s : String) (t : Time), r.Data.lookup key = some (.string s) →
      parseRFC3339 s = .ok t → r.TimeFromRFC3339String parseRFC3339 key = ⟨t, true⟩) := by
  refine ⟨fun h => ?_, fun s e h he => ?_, fun s t h ht => ?_⟩
  · simp [DataRow.TimeFromRFC3339String, h, NullTime.zero]
  · simp [DataRow.TimeFromRFC3339String, DataRow.String, getItem_of_lookup_some r key _ h,
      _string, _timeFromRFC3339String, he, NullTime.zero]
  · simp [DataRow.TimeFromRFC3339String, DataRow.String, getItem_of_lookup_some r key _ h,
      _string, _timeFromRFC3339String, ht]

/-- C14 at concrete rows, with the sample parser: an integer column, a string
the parser rejects, and a string it accepts. -/
theorem timeFromRFC3339String_follows_parse_witness :
    ((DataRow.mk [("time", .int64 1700000000)]).TimeFromRFC3339String sampleParse "time").Valid
      = false ∧
    ((DataRow.mk [("time2", .string "yesterday")]).TimeFromRFC3339String sampleParse
      "time2").Valid = false ∧
    (DataRow.mk [("time2", .string "1970-01-01T00:01:00Z")]).TimeFromRFC3339String sampleParse
      "time2" = ⟨⟨60, 0, false⟩, true⟩ :=
  ⟨(timeFromRFC3339String_follows_parse sampleParse ⟨[("time", .int64 1700000000)]⟩ "time").1
      (by decide),
    (timeFromRFC3339String_follows_parse sampleParse ⟨[("time2", .string "yesterday")]⟩
      "time2").2.1 "yesterday" (Error.new "parsing time") (by decide) (by decide),
    (timeFromRFC3339String_follows_parse sampleParse
      ⟨[("time2", .string "1970-01-01T00:01:00Z")]⟩ "time2").2.2 "1970-01-01T00:01:00Z"
      ⟨60, 0, false⟩ (by decide) (by decide)⟩

/-- C15: for every row and key, `TimeFromUnix` is valid exactly when `Int` is;
when `Int` is valid with the integer `n`, whatever its sign or size, the result
is valid and its time is `time.Unix(n, 0)`: `n` seconds and zero nanoseconds
after the Unix epoch, in the local zone. -/
theorem timeFromUnix_valid_iff_int_valid (r : DataRow) (key : String) :
    (r.TimeFromUnix key).Valid = (r.Int key).Valid ∧
    (∀ n : Int, r.Int key = ⟨n, true⟩ →
      r.TimeFromUnix key = ⟨⟨n, 0, true⟩, true⟩) ∧
    ((r.Int key).Valid = false → (r.TimeFromUnix key).Valid = false) := by
  refine ⟨?_, fun n h => ?_, fun h => ?_⟩
  · unfold DataRow.TimeFromUnix _timeFromUnix
    cases hv : (r.Int key).Valid <;> simp [hv, NullTime.zero]
  · simp [DataRow.TimeFromUnix, _timeFromUnix, timeUnix, h]
  · simp [DataRow.TimeFromUnix, h, NullTime.zero]

/-- C15 at concrete rows: a positive, a negative and the largest 64-bit
integer, and a string. -/
theorem timeFromUnix_valid_iff_int_valid_witness :
    (DataRow.mk [("time", .int64 1700000000)]).TimeFromUnix "time" =
      ⟨⟨1700000000, 0, true⟩, true⟩ ∧
    (DataRow.mk [("time", .int (-86400))]).TimeFromUnix "time" = ⟨⟨-86400, 0, true⟩, true⟩ ∧
    (DataRow.mk [("time", .int64 9223372036854775807)]).TimeFromUnix "time" =
      ⟨⟨9223372036854775807, 0, true⟩, true⟩ ∧
    ((DataRow.mk [("time", .string "now")]).TimeFromUnix "time").Valid = false :=
  ⟨(timeFromUnix_valid_iff_int_valid ⟨[("time", .int64 1700000000)]⟩ "time").2.1 1700000000
      (by decide),
    (timeFromUnix_valid_iff_int_valid ⟨[("time", .int (-86400))]⟩ "time").2.1 (-86400)
      (by decide),
    (timeFromUnix_valid_iff_int_valid ⟨[("time", .int64 9223372036854775807)]⟩ "time").2.1
      9223372036854775807 (by decide),
    (timeFromUnix_valid_iff_int_valid ⟨[("time", .string "now")]⟩ "time").2.2 (by decide)⟩

/-- C16: the accessors of `FieldValuePair` agree with those of `DataRow`: for
every key `k`, value `v` and row whose data maps `k` to `v`, each of `Int`,
`String`, `Float`, `Bool`, `BoolFromInt`, `TimeFromUnix` and
`TimeFromRFC3339String` returns on the pair `(k, v)` what it returns on the row
at `k`, validity flag and value alike. -/
theorem fieldValuePair_accessors_eq_dataRow (parseRFC3339 : String → Except Error Time)
    (r : DataRow) (k : String) (v : Dyn) (h : r.Data.lookup k = some v) :
    (FieldValuePair.mk k v).Int = r.Int k ∧
    (FieldValuePair.mk k v).String = r.String k ∧
    (FieldValuePair.mk k v).Float = r.Float k ∧
    (FieldValuePair.mk k v).Bool = r.Bool k ∧
    (FieldValuePair.mk k v).BoolFromInt = r.BoolFromInt k ∧
    (FieldValuePair.mk k v).TimeFromUnix = r.TimeFromUnix k ∧
    (FieldValuePair.mk k v).TimeFromRFC3339String parseRFC3339 =
      r.TimeFromRFC3339String parseRFC3339 k := by
  have hg := getItem_of_lookup_some r k v h
  simp [FieldValuePair.Int, FieldValuePair.String, FieldValuePair.Float, FieldValuePair.Bool,
    FieldValuePair.BoolFromInt, FieldValuePair.TimeFromUnix,
    FieldValuePair.TimeFromRFC3339String, DataRow.Int, DataRow.String, DataRow.Float,
    DataRow.Bool, DataRow.BoolFromInt, DataRow.TimeFromUnix, DataRow.TimeFromRFC3339String, hg]

/-- C16 at a concrete row and key. -/
theorem fieldValuePair_accessors_eq_dataRow_witness :
    (FieldValuePair.mk "status" (.int64 1)).Int =
      (DataRow.mk [("name", .string "John Doe"), ("status", .int64 1)]).Int "status" ∧
    (FieldValuePair.mk "status" (.int64 1)).BoolFromInt =
      (DataRow.mk [("name", .string "John Doe"), ("status", .int64 1)]).BoolFromInt "status" ∧
    (FieldValuePair.mk "status" (.int64 1)).TimeFromRFC3339String sampleParse =
      (DataRow.mk [("name", .string "John Doe"), ("status", .int64 1)]).TimeFromRFC3339String
        sampleParse "status" :=
  have h := fieldValuePair_accessors_eq_dataRow sampleParse
    ⟨[("name", .string "John Doe"), ("status", .int64 1)]⟩ "status" (.int64 1) (by decide)
  ⟨h.1, h.2.2.2.2.1, h.2.2.2.2.2.2⟩

/-- C20: the base coercions are mutually exclusive: for every stored value at
most one of `_int`, `_string`, `_float`, `_bool` and `_time` returns
`Valid = true`; in particular the integer `1` is not a valid `Bool` and a
numeric string is not a valid `Int`. -/
theorem base_coercions_mutually_exclusive (v : Dyn) :
    validCount v ≤ 1 ∧
    (_bool (.int 1)).Valid = false ∧ (_int (.string "12")).Valid = false := by
  refine ⟨?_, rfl, rfl⟩
  cases v <;> simp [validCount, _int, _string, _float, _bool, _time, NullInt64.zero,
    NullString.zero, NullFloat64.zero, NullBool.zero, NullTime.zero]

/-! ## Executor operations: results -/

theorem lookup_cons_ite (q a : String) (b : Dyn) (es : List (String × Dyn)) :
    List.lookup q ((a, b) :: es) = if q = a then some b else List.lookup q es := by
  rw [List.lookup_cons]
  by_cases h : q = a
  · simp [h]
  · have hb : (q == a) = false := by simpa using h
    simp [hb, h]

theorem lookup_set (m : Data) (k q : String) (v : Dyn) :
    (Data.set m k v).lookup q = if q = k then some v else m.lookup q := by
  induction m with
  | nil =>
    by_cases h : q = k <;> simp [Data.set, lookup_cons_ite, h]
  | cons kv rest ih =>
    obtain ⟨a, b⟩ := kv
    by_cases hak : a = k
    · subst hak
      by_cases h : q = a <;> simp [Data.set, lookup_cons_ite, h]
    · by_cases h : q = k
      · subst h
        have : ¬ q = a := fun h => hak h.symm
        simp [Data.set, lookup_cons_ite, hak, ih, this]
      · by_cases h2 : q = a <;> simp [Data.set, lookup_cons_ite, hak, ih, h, h2]

theorem lookup_MapScan (record : Record) (dest : Data) (q : String) :
    (MapScan dest record).lookup q = (record.reverse.lookup q).or (dest.lookup q) := by
  induction record generalizing dest with
  | nil => simp [MapScan]
  | cons kv rest ih =>
    obtain ⟨a, b⟩ := kv
    have h := ih (Data.set dest a b)
    simp only [MapScan, List.foldl_cons] at h ⊢
    rw [h, lookup_set, List.reverse_cons, List.lookup_append]
    by_cases hq : q = a
    · subst hq
      cases List.lookup q rest.reverse <;> simp [lookup_cons_ite]
    · cases List.lookup q rest.reverse <;> simp [lookup_cons_ite, hq]

theorem selectLoop_all_ok (records : List Record) (items : List DataRow) (w : World) :
    (selectLoop (records.map .ok) items w).1 =
      .ok (items ++ records.map fun record => ⟨MapScan [] record⟩) := by
  induction records generalizing items w with
  | nil => simp [selectLoop]
  | cons record rest ih =>
    simp only [List.map_cons, selectLoop]
    rw [ih]
    simp [NewDataRow]

/-- C17: once the statement is prepared, the failure `SelectRow` returns for a
failed scan is the scan's own error, unchanged and with no row; when the scan
is the library's `sqlx.Row` scan of a query whose result set is empty, that
failure is exactly `sql.ErrNoRows`, and any other scan failure is returned as a
failure other than `sql.ErrNoRows`. -/
theorem SelectRow_returns_scan_error (db : Client) (query : String) (values : List Dyn)
    (w : World) (hp : db.Preparex query = none) :
    (∀ e : Error, db.QueryRowx query values = .error e →
      (SelectRow db query values w).1 = .error e) ∧
    (db.QueryRowx query values = rowScan (db.Queryx query values) →
      db.Queryx query values = .ok [] →
      (SelectRow db query values w).1 = .error Error.ErrNoRows) ∧
    (∀ e : Error, db.QueryRowx query values = .error e → e ≠ Error.ErrNoRows →
      (SelectRow db query values w).1 ≠ .error Error.ErrNoRows) := by
  have key : ∀ e : Error, db.QueryRowx query values = .error e →
      (SelectRow db query values w).1 = .error e := by
    intro e he
    simp [SelectRow, hp, he]
  refine ⟨key, fun hrow hempty => key _ (by rw [hrow, hempty]; rfl), fun e he hne => ?_⟩
  rw [key e he]
  intro h
  exact hne (by injection h)

/-- C17 at the query of the repository's test, on a client whose result set is
empty. -/
theorem SelectRow_returns_scan_error_witness :
    (okClient []).Preparex "SELECT * FROM testing WHERE id=?" = none ∧
    (okClient []).Queryx "SELECT * FROM testing WHERE id=?" [.int 1] = .ok [] ∧
    (SelectRow (okClient []) "SELECT * FROM testing WHERE id=?" [.int 1] World.init).1 =
      .error Error.ErrNoRows :=
  ⟨rfl, rfl,
    (SelectRow_returns_scan_error (okClient []) "SELECT * FROM testing WHERE id=?" [.int 1]
      World.init rfl).2.1 rfl rfl⟩

/-- C18: whenever preparation, the query and both closes succeed and the
cursor yields `n ≥ 0` records that each scan successfully, `Select` returns
without failure exactly `n` rows, the `i`-th row holding the map scanned from
the `i`-th record (each column mapped to its value, the last one if a column
name occurs twice), in the driver's order; for no record the result is the
empty sequence. -/
theorem Select_returns_all_records (db : Client) (query : String) (values : List Dyn)
    (w : World) (records : List Record) (hp : db.Preparex query = none)
    (hq : db.Queryx query values = .ok (records.map .ok))
    (hrc : db.RowsClose query = none) (hsc : db.StmtClose query = none) :
    (Select db query values w).1 = .ok (records.map fun record => ⟨MapScan [] record⟩) ∧
    (∀ rows : List DataRow, (Select db query values w).1 = .ok rows →
      rows.length = records.length ∧
      ∀ (i : Nat) (q : String), (rows[i]?).map (fun row => row.Data.lookup q) =
        (records[i]?).map (fun record => record.reverse.lookup q)) ∧
    (records = [] → (Select db query values w).1 = .ok []) := by
  have hmain : (Select db query values w).1 =
      .ok (records.map fun record => ⟨MapScan [] record⟩) := by
    have hl := selectLoop_all_ok records [] ((w.call (.Preparex query)).acquireStmt.call
      (.Queryx values)).acquireRows
    simp only [Select, hp, hq]
    revert hl
    generalize selectLoop (records.map .ok) []
      ((w.call (.Preparex query)).acquireStmt.call (.Queryx values)).acquireRows = res
    obtain ⟨out, w'⟩ := res
    intro hl
    simp only at hl
    subst hl
    simp [hrc, hsc]
  refine ⟨hmain, fun rows hrows => ?_, fun hnil => ?_⟩
  · rw [hmain] at hrows
    injection hrows with hrows
    subst hrows
    refine ⟨by simp, fun i q => ?_⟩
    rw [List.getElem?_map]
    cases records[i]? <;> simp [lookup_MapScan]
  · rw [hmain, hnil]
    rfl

/-- C18 on a client yielding two records, and on one yielding none. -/
theorem Select_returns_all_records_witness :
    (Select (okClient [[("id", .int64 1), ("name", .string "John Doe")],
        [("id", .int64 2), ("name", .string "John Doe2")]]) "SELECT * FROM testing" []
      World.init).1 =
      .ok [⟨[("id", .int64 1), ("name", .string "John Doe")]⟩,
        ⟨[("id", .int64 2), ("name", .string "John Doe2")]⟩] ∧
    (Select (okClient []) "SELECT * FROM testing" [] World.init).1 = .ok [] :=
  ⟨(Select_returns_all_records (okClient [[("id", .int64 1), ("name", .string "John Doe")],
        [("id", .int64 2), ("name", .string "John Doe2")]]) "SELECT * FROM testing" []
      World.init [[("id", .int64 1), ("name", .string "John Doe")],
        [("id", .int64 2), ("name", .string "John Doe2")]] rfl rfl rfl rfl).1,
    (Select_returns_all_records (okClient []) "SELECT * FROM testing" [] World.init [] rfl rfl
      rfl rfl).2.2 rfl⟩

/-- C19: for every table and field list, with `(cmd, values)` the result of
`buildInsertCommand`, the only text `Insert` prepares is `cmd` and the only bind
values it executes with are `values`; whenever preparation, execution and
identifier retrieval all succeed it returns a valid nullable integer holding
the driver-reported identifier; and if preparation, execution or identifier
retrieval fails it returns that step's failure and no result, making no later
call. The hypothesis `hclose` is the behaviour of `database/sql`: `Close` on a
statement prepared on a `DB` reports no error. -/
theorem Insert_returns_identifier_or_step_failure (db : Client) (table : String)
    (fields : List FieldValuePair) (w : World) (cmd : String) (values : List Dyn)
    (hb : buildInsertCommand table fields = (cmd, values)) (hclose : db.StmtClose cmd = none) :
    (∀ e : Error, db.Preparex cmd = some e →
      (Insert db table fields w).1 = .error e ∧
      (Insert db table fields w).2.calls = w.calls ++ [.Preparex cmd]) ∧
    (db.Preparex cmd = none →
      (∀ e : Error, db.Exec cmd values = .error e →
        (Insert db table fields w).1 = .error e ∧
        (Insert db table fields w).2.calls = w.calls ++ [.Preparex cmd, .Exec values]) ∧
      (∀ result : Result, db.Exec cmd values = .ok result →
        (∀ e : Error, result.LastInsertId = .error e →
          (Insert db table fields w).1 = .error e ∧
          (Insert db table fields w).2.calls =
            w.calls ++ [.Preparex cmd, .Exec values, .LastInsertId]) ∧
        (∀ id : Int, result.LastInsertId = .ok id →
          (Insert db table fields w).1 = .ok ⟨id, true⟩ ∧
          (Insert db table fields w).2.calls =
            w.calls ++ [.Preparex cmd, .Exec values, .LastInsertId, .StmtClose]))) := by
  refine ⟨fun e he => ?_, fun hp => ⟨fun e he => ?_, fun result hr =>
    ⟨fun e he => ?_, fun id hid => ?_⟩⟩⟩
  · simp [Insert, hb, he, World.call]
  · simp [Insert, hb, hp, he, World.call, World.acquireStmt]
  · simp [Insert, hb, hp, hr, he, World.call, World.acquireStmt]
  · simp [Insert, hb, hp, hr, hid, hclose, World.call, World.acquireStmt, World.releaseStmt]

/-- C19 on the repository's test insert: a client on which every call
succeeds, one whose preparation fails, one whose execution fails and one whose
identifier retrieval fails. -/
theorem Insert_returns_identifier_or_step_failure_witness :
    (Insert (okClient []) "testing" [⟨"name", .string "Jane Doe"⟩, ⟨"status", .string "1"⟩]
      World.init).1 = .ok ⟨4, true⟩ ∧
    (Insert (okClient []) "testing" [⟨"name", .string "Jane Doe"⟩, ⟨"status", .string "1"⟩]
      World.init).2.calls =
      [.Preparex "INSERT INTO `testing`(`name`, `status`) VALUES (?, ?);",
        .Exec [.string "Jane Doe", .string "1"], .LastInsertId, .StmtClose] ∧
    (Insert prepareFailClient "testing" [⟨"name", .string "Jane Doe"⟩, ⟨"status", .string "1"⟩]
      World.init).1 = .error (Error.client 4) ∧
    (Insert execFailClient "testing" [⟨"name", .string "Jane Doe"⟩, ⟨"status", .string "1"⟩]
      World.init).1 = .error (Error.client 1) ∧
    (Insert lastIdFailClient "testing" [⟨"name", .string "Jane Doe"⟩, ⟨"status", .string "1"⟩]
      World.init).1 = .error (Error.client 5) :=
  ⟨((((Insert_returns_identifier_or_step_failure (okClient []) "testing"
      [⟨"name", .string "Jane Doe"⟩, ⟨"status", .string "1"⟩] World.init
      "INSERT INTO `testing`(`name`, `status`) VALUES (?, ?);" [.string "Jane Doe", .string "1"]
      (by decide) rfl).2 rfl).2 ⟨.ok 4⟩ rfl).2 4 rfl).1,
    ((((Insert_returns_identifier_or_step_failure (okClient []) "testing"
      [⟨"name", .string "Jane Doe"⟩, ⟨"status", .string "1"⟩] World.init
      "INSERT INTO `testing`(`name`, `status`) VALUES (?, ?);" [.string "Jane Doe", .string "1"]
      (by decide) rfl).2 rfl).2 ⟨.ok 4⟩ rfl).2 4 rfl).2,
    ((Insert_returns_identifier_or_step_failure prepareFailClient "testing"
      [⟨"name", .string "Jane Doe"⟩, ⟨"status", .string "1"⟩] World.init
      "INSERT INTO `testing`(`name`, `status`) VALUES (?, ?);" [.string "Jane Doe", .string "1"]
      (by decide) rfl).1 (Error.client 4) rfl).1,
    (((Insert_returns_identifier_or_step_failure execFailClient "testing"
      [⟨"name", .string "Jane Doe"⟩, ⟨"status", .string "1"⟩] World.init
      "INSERT INTO `testing`(`name`, `status`) VALUES (?, ?);" [.string "Jane Doe", .string "1"]
      (by decide) rfl).2 rfl).1 (Error.client 1) rfl).1,
    ((((Insert_returns_identifier_or_step_failure lastIdFailClient "testing"
      [⟨"name", .string "Jane Doe"⟩, ⟨"status", .string "1"⟩] World.init
      "INSERT INTO `testing`(`name`, `status`) VALUES (?, ?);" [.string "Jane Doe", .string "1"]
      (by decide) rfl).2 rfl).2 ⟨.error (Error.client 5)⟩ rfl).1 (Error.client 5) rfl).1⟩

end Database
